import Mathlib

/-!
Verification of the luca backend integration and sync core.

This file gives a shallow embedding, in Lean, of the parts of the backend
that the specification talks about:

- the daily metrics aggregator (calculate_daily_metrics_for_org and
  get_expenses_for_date in apps/integrations/tasks.py),
- the OAuth code exchange (OAuthService.exchange_code in
  apps/integrations/services/oauth.py),
- the sync trigger and sync status endpoints (apps/integrations/api/sync_views.py),
- the upsert loops of the ingestion tasks (sync_orders_for_integration and
  sync_ad_spend_for_integration in apps/integrations/tasks.py),
- the Shopify order normalization (ShopifyClient._normalize_order in
  apps/integrations/services/platforms.py),
- refund extraction and persistence (apps/orders/services.py).

Conventions of the embedding: Python Decimal and float arithmetic is
modelled by exact rationals; Django querysets over a table are modelled by
Lists of row structures, and queryset filters by List.filter with decidable
predicates; calendar dates are modelled by a year/month/day structure;
timestamps, where only their relative order matters, are modelled by Nat.
-/

namespace Luca

/-- A calendar date, as used by Django DateField values.  Day arithmetic
(timedelta) is defined below via nextDay. -/
structure CalDate where
  year : Nat
  month : Nat
  day : Nat
deriving DecidableEq, Repr

/-- Lexicographic date comparison, the order Django uses for
expense_date__lte and recurrence_end_date__gte lookups. -/
def CalDate.ble (a b : CalDate) : Bool :=
  decide (a.year < b.year) ||
    (decide (a.year = b.year) &&
      (decide (a.month < b.month) ||
        (decide (a.month = b.month) && decide (a.day ≤ b.day))))

/-- Leap year rule of the Gregorian calendar. -/
def isLeapYear (y : Nat) : Bool :=
  (decide (y % 4 = 0) && decide (y % 100 ≠ 0)) || decide (y % 400 = 0)

/-- Number of days in a month of a given year. -/
def daysInMonth (y m : Nat) : Nat :=
  if m = 2 then (if isLeapYear y then 29 else 28)
  else if m = 4 ∨ m = 6 ∨ m = 9 ∨ m = 11 then 30
  else 31

/-- A real calendar date: month in range and day within the month. -/
def CalDate.valid (d : CalDate) : Prop :=
  1 ≤ d.month ∧ d.month ≤ 12 ∧ 1 ≤ d.day ∧ d.day ≤ daysInMonth d.year d.month

instance (d : CalDate) : Decidable d.valid := by
  unfold CalDate.valid; infer_instance

/-- The calendar successor of a date (one day of Python timedelta). -/
def nextDay (d : CalDate) : CalDate :=
  if d.day < daysInMonth d.year d.month then ⟨d.year, d.month, d.day + 1⟩
  else if d.month < 12 then ⟨d.year, d.month + 1, 1⟩
  else ⟨d.year + 1, 1, 1⟩

/-- Adding n days to a date. -/
def addDays (n : Nat) (d : CalDate) : CalDate :=
  match n with
  | 0 => d
  | n + 1 => addDays n (nextDay d)

/-- Injection of dates into Nat that is strictly monotone along nextDay for
valid dates (month stays below 100 and month*100+day below 10000). -/
def CalDate.toKey (d : CalDate) : Nat :=
  d.year * 10000 + d.month * 100 + d.day

/-! ## Data model

Row structures for the tables the claims touch.  Field sets follow the
Django models in apps/orders/models.py, apps/analytics/models.py and
apps/integrations/models.py; the Expense and Refund model classes are not
present under src (only their call sites are), so their fields follow the
construction sites in apps/integrations/tasks.py and apps/orders/services.py
together with spec section 3. -/

/-- One entry of an order's raw_data refunds array, as read by
extract_refunds_from_order: a refund id, a creation timestamp (none models
a missing or unparseable value), transaction amounts and
refund_line_items subtotals (none models a missing amount key). -/
structure RawRefundData where
  id : Option Int
  created_at : Option CalDate
  transactions : List (Option ℚ)
  refund_line_items : List (Option ℚ)
deriving DecidableEq, Repr

/-- An Order row.  order_date models the date part of the stored timestamp
(the aggregator filters on order_date__date); raw_refunds models the
refunds array of the stored raw_data payload. -/
structure Order where
  organization : Nat
  external_id : String
  source : String
  store_id : String
  order_date : CalDate
  total_amount : ℚ
  currency : String
  status : String
  customer_id : String
  customer_email : String
  is_new_customer : Option Bool
  raw_refunds : List RawRefundData
deriving DecidableEq, Repr

/-- A Refund row, as built in apps/orders/services.py; the parent order
link is modelled by the parent's external id. -/
structure Refund where
  organization : Nat
  external_id : String
  order_external_id : String
  refund_date : CalDate
  amount : ℚ
  currency : String
  raw_data : RawRefundData
deriving DecidableEq, Repr

/-- An AdSpendDaily row (apps/analytics/models.py). -/
structure AdSpendDaily where
  organization : Nat
  date : CalDate
  platform : String
  account_id : String
  spend : ℚ
  currency : String
  impressions : Int
  clicks : Int
  conversions : Int
deriving DecidableEq, Repr

/-- Expense recurrence policy (Expense.RecurrenceType). -/
inductive RecurrenceType where
  | one_time
  | daily
  | monthly
deriving DecidableEq, Repr

/-- An Expense row, with the fields get_expenses_for_date filters on. -/
structure Expense where
  organization : Nat
  expense_date : CalDate
  recurrence : RecurrenceType
  recurrence_end_date : Option CalDate
  amount : ℚ
  expense_type : String
  is_active : Bool
deriving DecidableEq, Repr

/-- The persisted state the aggregator reads for one run. -/
structure OrgState where
  orders : List Order
  refunds : List Refund
  expenses : List Expense
  ad_spend : List AdSpendDaily
deriving Repr

/-! ## Daily metrics aggregator (apps/integrations/tasks.py) -/

/-- Q(recurrence_end_date__isnull=True) or Q(recurrence_end_date__gte=target). -/
def expenseEndOk (e : Expense) (target : CalDate) : Bool :=
  match e.recurrence_end_date with
  | none => true
  | some ed => CalDate.ble target ed

/-- The one-time expense queryset filter of get_expenses_for_date. -/
def oneTimeMatch (org : Nat) (target : CalDate) (e : Expense) : Bool :=
  decide (e.organization = org) && decide (e.expense_date = target) &&
    decide (e.recurrence = RecurrenceType.one_time) && e.is_active

/-- The daily recurring expense queryset filter of get_expenses_for_date. -/
def dailyMatch (org : Nat) (target : CalDate) (e : Expense) : Bool :=
  decide (e.organization = org) && CalDate.ble e.expense_date target &&
    decide (e.recurrence = RecurrenceType.daily) && e.is_active &&
    expenseEndOk e target

/-- The monthly recurring expense queryset filter of get_expenses_for_date:
expense_date__day=target_date.day and expense_date__lte=target_date. -/
def monthlyMatch (org : Nat) (target : CalDate) (e : Expense) : Bool :=
  decide (e.organization = org) && decide (e.expense_date.day = target.day) &&
    CalDate.ble e.expense_date target &&
    decide (e.recurrence = RecurrenceType.monthly) && e.is_active &&
    expenseEndOk e target

/-- get_expenses_for_date: total of the three querysets.  The per-type
breakdown map the source also returns is not modelled; no claim mentions
it. -/
def get_expenses_for_date (expenses : List Expense) (org : Nat)
    (target : CalDate) : ℚ :=
  ((expenses.filter (oneTimeMatch org target)).map Expense.amount).sum +
    ((expenses.filter (dailyMatch org target)).map Expense.amount).sum +
    ((expenses.filter (monthlyMatch org target)).map Expense.amount).sum

/-- The DailyMetrics values written by calculate_daily_metrics_for_org
(the revenue field stores total_sales, as the source comments note). -/
structure DailyMetrics where
  gross_revenue : ℚ
  revenue : ℚ
  total_refunds : ℚ
  orders_count : Nat
  average_order_value : ℚ
  new_customers_count : Nat
  total_expenses : ℚ
  total_spend : ℚ
  net_profit : ℚ
  roas : ℚ
  mer : ℚ
  net_margin : ℚ
  ncpa : ℚ
deriving DecidableEq, Repr

/-- The statuses excluded from gross revenue. -/
def excluded_statuses : List String :=
  ["cancelled", "canceled", "refunded", "voided", "failed"]

/-- calculate_daily_metrics_for_org, one run over fixed state.  Decimal and
float arithmetic is modelled by exact rationals. -/
def calculate_daily_metrics_for_org (st : OrgState) (org : Nat)
    (target : CalDate) : DailyMetrics :=
  let orders := st.orders.filter (fun o =>
    decide (o.organization = org) && decide (o.order_date = target) &&
      !(decide (o.status ∈ excluded_statuses)))
  let gross_revenue := (orders.map Order.total_amount).sum
  let orders_count := orders.length
  let new_customers :=
    (orders.filter (fun o => decide (o.is_new_customer = some true))).length
  let avg_order_value :=
    if orders_count > 0 then gross_revenue / (orders_count : ℚ) else 0
  let refunds := st.refunds.filter (fun r =>
    decide (r.organization = org) && decide (r.refund_date = target))
  let total_refunds := (refunds.map Refund.amount).sum
  let total_sales := gross_revenue - total_refunds
  let total_expenses := get_expenses_for_date st.expenses org target
  let spends := st.ad_spend.filter (fun s =>
    decide (s.organization = org) && decide (s.date = target))
  let total_spend := (spends.map AdSpendDaily.spend).sum
  let net_profit := total_sales - total_expenses - total_spend
  let roas := if total_spend > 0 then total_sales / total_spend else 0
  let mer := if total_spend > 0 then total_sales / total_spend else 0
  let net_margin := if total_sales > 0 then net_profit / total_sales * 100 else 0
  let ncpa := if new_customers > 0 then total_spend / (new_customers : ℚ) else 0
  { gross_revenue := gross_revenue
    revenue := total_sales
    total_refunds := total_refunds
    orders_count := orders_count
    average_order_value := avg_order_value
    new_customers_count := new_customers
    total_expenses := total_expenses
    total_spend := total_spend
    net_profit := net_profit
    roas := roas
    mer := mer
    net_margin := net_margin
    ncpa := ncpa }

/-! ## OAuth code exchange (apps/integrations/services/oauth.py) -/

/-- The error outcomes of OAuthService.exchange_code: the two ValueError
messages and a failed POST to the platform token endpoint
(response.raise_for_status). -/
inductive OAuthError where
  | invalidState
  | expiredState
  | tokenExchangeFailed
deriving DecidableEq, Repr

/-- An OAuthState row. expires_at is a timestamp; is_expired is
timezone.now() > expires_at. -/
structure OAuthStateRow where
  organization : Nat
  user : Nat
  platform : String
  state : String
  expires_at : Nat
deriving DecidableEq, Repr

/-- OAuthService.exchange_code over the OAuthState table: look up the row
by state token (invalid-state error if absent), reject expired rows, POST
the code to the token endpoint (httpOk models whether that call succeeds;
on failure the exception propagates with the table unchanged), and delete
the state row only after a successful exchange.  Returns the outcome -
with the row's organization and user on success - and the table
afterward. -/
def exchange_code (db : List OAuthStateRow) (now : Nat) (state : String)
    (httpOk : Bool) : Except OAuthError (Nat × Nat) × List OAuthStateRow :=
  match db.find? (fun r => decide (r.state = state)) with
  | none => (Except.error OAuthError.invalidState, db)
  | some row =>
    if row.expires_at < now then (Except.error OAuthError.expiredState, db)
    else if httpOk then
      (Except.ok (row.organization, row.user),
        db.filter (fun r => !(decide (r.state = state))))
    else (Except.error OAuthError.tokenExchangeFailed, db)

/-! ## Sync trigger and status endpoints (apps/integrations/api/sync_views.py) -/

/-- One connected integration in the trigger loop; succeeds records whether
its synchronous sync_orders_for_integration.run call raises. -/
structure IntegrationAttempt where
  id : Nat
  succeeds : Bool
deriving DecidableEq, Repr

/-- The dates SyncTriggerView.post hands to
calculate_daily_metrics_for_org: today - timedelta(days=i) for i in
range(days).  Calendar dates are modelled here by their integer day
ordinal, so the subtraction is integer subtraction. -/
def scheduledDates (days : Nat) (today : ℤ) : List ℤ :=
  (List.range days).map (fun (i : ℕ) => today - (i : ℤ))

/-- SyncTriggerView.post: none models the 400 no-connected-integrations
response; otherwise the response carries the count of integrations whose
synchronous sync did not raise, alongside the scheduled aggregator
dates. -/
def syncTriggerPost (integrations : List IntegrationAttempt) (days : Nat)
    (today : ℤ) : Option (Nat × List ℤ) :=
  if integrations.isEmpty then none
  else
    some (integrations.countP (fun i => i.succeeds),
      scheduledDates days today)

/-- SyncLog.Status values. -/
inductive SyncLogStatus where
  | pending
  | in_progress
  | success
  | failed
deriving DecidableEq, Repr

/-- A SyncLog row; completed_at is set by mark_success and mark_failed and
stays none while pending or in progress. -/
structure SyncLogRow where
  organization : Nat
  status : SyncLogStatus
  started_at : Nat
  completed_at : Option Nat
deriving DecidableEq, Repr

/-- One fold step of the started_at maximum search. -/
def latestStep (acc : Option SyncLogRow) (r : SyncLogRow) : Option SyncLogRow :=
  match acc with
  | none => some r
  | some a => if a.started_at < r.started_at then some r else acc

/-- order_by("-started_at").first(): the row with the greatest started_at
(the first such row in table order when started_at values tie). -/
def latestByStartedAt (rows : List SyncLogRow) : Option SyncLogRow :=
  rows.foldl latestStep none

/-- SyncStatusView.get: the reported status string and last_sync_at, which
the source takes from the completed_at of the most recently started log
row. -/
def getSyncStatus (rows : List SyncLogRow) (org : Nat) :
    String × Option Nat :=
  let logs := rows.filter (fun r => decide (r.organization = org))
  match latestByStartedAt logs with
  | none => ("idle", none)
  | some latest =>
    (if logs.any (fun r => decide (r.status = SyncLogStatus.in_progress))
      then "running" else "idle",
      latest.completed_at)

/-! ## Ingestion upserts (apps/integrations/tasks.py)

update_or_create over a table is modelled over an association list of
(natural key, non-key fields) pairs: a row whose key is already present is
updated in place, otherwise a new row is appended. -/

section Upsert

variable {κ φ : Type} [DecidableEq κ]

/-- Whether the store holds a row with the given natural key. -/
def containsKey (s : List (κ × φ)) (k : κ) : Bool :=
  s.any (fun p => decide (p.1 = k))

/-- One update_or_create call. -/
def upsert (s : List (κ × φ)) (r : κ × φ) : List (κ × φ) :=
  if containsKey s r.1 then s.map (fun p => if p.1 = r.1 then r else p)
  else s ++ [r]

/-- The ingestion loop: one update_or_create per fetched record, in order. -/
def upsertAll (s : List (κ × φ)) (l : List (κ × φ)) : List (κ × φ) :=
  l.foldl upsert s

/-- The keys of the store's rows. -/
def storeKeys (s : List (κ × φ)) : List κ :=
  s.map Prod.fst

/-- The last value a record list assigns to a key, if any. -/
def lastVal (l : List (κ × φ)) (k : κ) : Option φ :=
  l.foldl (fun acc r => if r.1 = k then some r.2 else acc) none

/-- Rewrite one row to the last value its key receives from the list. -/
def applyLast (l : List (κ × φ)) (p : κ × φ) : κ × φ :=
  match lastVal l p.1 with
  | some v => (p.1, v)
  | none => p

end Upsert

/-- Natural key of an Order upsert: (organization, external_id, source). -/
abbrev OrderKey := Nat × String × String

/-- The defaults dict of the Order update_or_create in
sync_orders_for_integration. -/
structure OrderDefaults where
  store_id : String
  order_date : CalDate
  total_amount : ℚ
  currency : String
  status : String
  customer_id : String
  customer_email : String
  is_new_customer : Option Bool
  raw_data : List RawRefundData
deriving DecidableEq, Repr

/-- Natural key of an AdSpendDaily upsert:
(organization, date, platform, account_id). -/
abbrev AdSpendKey := Nat × CalDate × String × String

/-- The defaults dict of the AdSpendDaily update_or_create in
sync_ad_spend_for_integration. -/
structure AdSpendDefaults where
  spend : ℚ
  currency : String
  impressions : Int
  clicks : Int
  conversions : Int
deriving DecidableEq, Repr

/-- The upsert loop of sync_orders_for_integration. -/
def sync_orders_upsert_all (s l : List (OrderKey × OrderDefaults)) :
    List (OrderKey × OrderDefaults) :=
  upsertAll s l

/-- The upsert loop of sync_ad_spend_for_integration. -/
def sync_ad_spend_upsert_all (s l : List (AdSpendKey × AdSpendDefaults)) :
    List (AdSpendKey × AdSpendDefaults) :=
  upsertAll s l

/-! ## Shopify order normalization (apps/integrations/services/platforms.py) -/

/-- A JSON scalar as found under the customer key of a Shopify order. -/
inductive JVal where
  | num (n : Int)
  | str (s : String)
  | null
deriving DecidableEq, Repr

/-- Python dict.get with a default. -/
def dictGet (d : List (String × JVal)) (k : String) (dflt : JVal) : JVal :=
  match d.find? (fun p => decide (p.1 = k)) with
  | some p => p.2
  | none => dflt

/-- The new-customer flag computed by ShopifyClient._normalize_order:
customer is order.get("customer") (none models an absent or null customer
key, which the source turns into an empty dict); with a falsy - empty -
customer dict the flag is None, otherwise it is orders_count == 1 with
orders_count defaulting to 0. -/
def shopify_is_new_customer (customer : Option (List (String × JVal))) :
    Option Bool :=
  let c := customer.getD []
  if c.isEmpty then none
  else some (decide (dictGet c "orders_count" (JVal.num 0) = JVal.num 1))

/-! ## Refund extraction and persistence (apps/orders/services.py) -/

/-- Sum of the truthy amounts of a transactions or refund_line_items
array: entries with a missing amount key or an amount of 0 are skipped by
the `if amount:` guard. -/
def truthyAmountSum (l : List (Option ℚ)) : ℚ :=
  l.foldl
    (fun acc a =>
      match a with
      | some x => if x = 0 then acc else acc + x
      | none => acc)
    0

/-- Total amount of one raw refund: the transaction amounts, falling back
to the refund_line_items subtotals when the transactions sum to 0. -/
def refundTotal (rd : RawRefundData) : ℚ :=
  let t := truthyAmountSum rd.transactions
  if t = 0 then truthyAmountSum rd.refund_line_items else t

/-- extract_refunds_from_order: one unsaved Refund per raw refund that has
a truthy id and a strictly positive extracted total; the refund date falls
back to the parent order's date. -/
def extract_refunds_from_order (o : Order) : List Refund :=
  o.raw_refunds.filterMap (fun rd =>
    match rd.id with
    | none => none
    | some i =>
      if i = 0 then none
      else
        let total := refundTotal rd
        if 0 < total then
          some
            { organization := o.organization
              external_id := toString i
              order_external_id := o.external_id
              refund_date := rd.created_at.getD o.order_date
              amount := total
              currency := o.currency
              raw_data := rd }
        else none)

/-- Whether a Refund row with the given (organization, external_id) key
exists. -/
def hasRefundKey (db : List Refund) (org : Nat) (eid : String) : Bool :=
  db.any (fun x => decide (x.organization = org) && decide (x.external_id = eid))

/-- Refund.objects.get_or_create keyed by (organization, external_id):
an existing row is returned untouched, otherwise the row is inserted.
Also returns the created flag. -/
def refund_get_or_create (db : List Refund) (r : Refund) :
    List Refund × Bool :=
  if hasRefundKey db r.organization r.external_id then (db, false)
  else (db ++ [r], true)

/-- One iteration of the refund persistence loop: get_or_create and count
a creation. -/
def refundStep (acc : List Refund × Nat) (r : Refund) : List Refund × Nat :=
  let res := refund_get_or_create acc.1 r
  (res.1, acc.2 + (if res.2 then 1 else 0))

/-- sync_refunds_from_order: get_or_create every refund extracted from one
order, counting how many were newly created. -/
def sync_refunds_from_order (db : List Refund) (o : Order) :
    List Refund × Nat :=
  (extract_refunds_from_order o).foldl refundStep (db, 0)

/-- One order of the organization-wide backfill loop. -/
def orgRefundStep (acc : List Refund × Nat) (o : Order) :
    List Refund × Nat :=
  let res := sync_refunds_from_order acc.1 o
  (res.1, acc.2 + res.2)

/-- sync_refunds_for_organization: the same loop over every order of the
organization. -/
def sync_refunds_for_organization (db : List Refund) (orders : List Order)
    (org : Nat) : List Refund × Nat :=
  (orders.filter (fun o => decide (o.organization = org))).foldl
    orgRefundStep (db, 0)

/-! ## Spec-side definition for the expense characterization

For the refinement claim about get_expenses_for_date, this second
definition follows the specification's words for which expenses count
toward a target date; the theorems below compare it with the source's
three querysets. -/

/-- The specification's description of the expenses counted for a target
date: active one-time expenses dated exactly on the target date; active
daily-recurring expenses with start date at most the target date and end
date null or at least the target date; and active monthly-recurring
expenses whose start-date day-of-month equals the target date's
day-of-month, with the same start and end constraints. -/
def specExpenseApplies (org : Nat) (target : CalDate) (e : Expense) : Prop :=
  e.organization = org ∧ e.is_active = true ∧
    ((e.recurrence = RecurrenceType.one_time ∧ e.expense_date = target) ∨
      (e.recurrence = RecurrenceType.daily ∧
        CalDate.ble e.expense_date target = true ∧
        expenseEndOk e target = true) ∨
      (e.recurrence = RecurrenceType.monthly ∧
        e.expense_date.day = target.day ∧
        CalDate.ble e.expense_date target = true ∧
        expenseEndOk e target = true))

instance (org : Nat) (target : CalDate) (e : Expense) :
    Decidable (specExpenseApplies org target e) := by
  unfold specExpenseApplies; infer_instance

/-- Amount total of the rows of a list passing a filter; abbreviates the
shape of each queryset sum in get_expenses_for_date. -/
def sumAmounts (l : List Expense) (p : Expense → Bool) : ℚ :=
  ((l.filter p).map Expense.amount).sum

/-! ## Concrete fixtures used by counterexamples and witnesses -/

/-- A paid order of 200 on 2025-03-10. -/
def fixOrder : Order :=
  { organization := 1, external_id := "o1", source := "shopify"
    store_id := "s", order_date := ⟨2025, 3, 10⟩, total_amount := 200
    currency := "USD", status := "paid", customer_id := ""
    customer_email := "", is_new_customer := some false, raw_refunds := [] }

/-- Ad spend of 100 on 2025-03-10. -/
def fixSpend : AdSpendDaily :=
  { organization := 1, date := ⟨2025, 3, 10⟩, platform := "meta"
    account_id := "a", spend := 100, currency := "USD", impressions := 0
    clicks := 0, conversions := 0 }

/-- State with one paid order of 200 and ad spend of 100 on 2025-03-10,
nothing else: net sales 200, total spend 100. -/
def c1State : OrgState :=
  { orders := [fixOrder], refunds := [], expenses := [], ad_spend := [fixSpend] }

/-- The order of the refund-on-a-later-day scenario: placed on day d with
total 100 and a non-terminal status s. -/
def c2Order (d : CalDate) (s : String) : Order :=
  { organization := 1, external_id := "o1", source := "shopify"
    store_id := "s", order_date := d, total_amount := 100, currency := "USD"
    status := s, customer_id := "", customer_email := ""
    is_new_customer := some false, raw_refunds := [] }

/-- The refund row of the scenario: amount 100 dated d3. -/
def c2Refund (d3 : CalDate) : Refund :=
  { organization := 1, external_id := "r1", order_external_id := "o1"
    refund_date := d3, amount := 100, currency := "USD"
    raw_data := { id := some 1, created_at := none, transactions := []
                  refund_line_items := [] } }

/-- The scenario state: exactly one order on day d, fully refunded by a
refund row dated three days later, no expenses and no ad spend. -/
def c2State (d : CalDate) (s : String) : OrgState :=
  { orders := [c2Order d s], refunds := [c2Refund (addDays 3 d)]
    expenses := [], ad_spend := [] }

/-- An unexpired OAuth state row. -/
def c3Row : OAuthStateRow :=
  { organization := 1, user := 1, platform := "meta", state := "tok"
    expires_at := 100 }

/-- An OAuthState table holding exactly that row. -/
def c3Db : List OAuthStateRow := [c3Row]

/-- Two sync log rows of one organization: an older run that completed at
time 2, and a more recently started run still in progress. -/
def c8Rows : List SyncLogRow :=
  [{ organization := 1, status := SyncLogStatus.success, started_at := 1
     completed_at := some 2 },
   { organization := 1, status := SyncLogStatus.in_progress, started_at := 3
     completed_at := none }]

/-- State with no rows at all. -/
def emptyOrgState : OrgState :=
  { orders := [], refunds := [], expenses := [], ad_spend := [] }

/-- Non-key order fields for the upsert fixtures. -/
def c5Defaults : OrderDefaults :=
  { store_id := "s", order_date := ⟨2025, 1, 1⟩, total_amount := 10
    currency := "USD", status := "paid", customer_id := ""
    customer_email := "", is_new_customer := none, raw_data := [] }

/-- A one-row order store. -/
def c5Store : List (OrderKey × OrderDefaults) :=
  [((1, "a", "shopify"), c5Defaults)]

/-- A fetched batch that updates the existing row and inserts one more. -/
def c5Batch : List (OrderKey × OrderDefaults) :=
  [((1, "a", "shopify"), c5Defaults), ((1, "b", "shopify"), c5Defaults)]

/-- An active monthly expense whose start date falls on the 31st. -/
def c7Expense : Expense :=
  { organization := 1, expense_date := ⟨2025, 1, 31⟩
    recurrence := RecurrenceType.monthly, recurrence_end_date := none
    amount := 50, expense_type := "rent", is_active := true }

/-! ## Calendar lemmas -/

theorem daysInMonth_le_31 (y m : Nat) : daysInMonth y m ≤ 31 := by
  unfold daysInMonth
  split
  · split <;> omega
  · split <;> omega

theorem daysInMonth_pos (y m : Nat) : 1 ≤ daysInMonth y m := by
  unfold daysInMonth
  split
  · split <;> omega
  · split <;> omega

theorem nextDay_valid {d : CalDate} (h : d.valid) : (nextDay d).valid := by
  obtain ⟨h1, h2, h3, h4⟩ := h
  unfold nextDay
  split
  · refine ⟨h1, h2, ?_, ?_⟩ <;> dsimp only <;> omega
  · split
    · have hp := daysInMonth_pos d.year (d.month + 1)
      refine ⟨?_, ?_, ?_, ?_⟩ <;> dsimp only <;> omega
    · have hp := daysInMonth_pos (d.year + 1) 1
      refine ⟨?_, ?_, ?_, ?_⟩ <;> dsimp only <;> omega

theorem toKey_lt_nextDay {d : CalDate} (h : d.valid) :
    d.toKey < (nextDay d).toKey := by
  obtain ⟨h1, h2, h3, h4⟩ := h
  have h31 : d.day ≤ 31 := le_trans h4 (daysInMonth_le_31 _ _)
  unfold nextDay CalDate.toKey
  split
  · dsimp only; omega
  · split
    · dsimp only; omega
    · dsimp only; omega

theorem toKey_lt_addDays {d : CalDate} (h : d.valid) (n : Nat) (hn : 0 < n) :
    d.toKey < (addDays n d).toKey := by
  induction n generalizing d with
  | zero => omega
  | succ n ih =>
    rcases Nat.eq_zero_or_pos n with h0 | hpos
    · subst h0; exact toKey_lt_nextDay h
    · exact lt_trans (toKey_lt_nextDay h) (ih (nextDay_valid h) hpos)

theorem addDays_ne {d : CalDate} (h : d.valid) (n : Nat) (hn : 0 < n) :
    addDays n d ≠ d := by
  intro heq
  have := toKey_lt_addDays h n hn
  rw [heq] at this
  exact lt_irrefl _ this

/-! ## C1: roas and mer formulas -/

/-- C1 counterexample: over a state whose net sales for 2025-03-10 are 200
with total spend 100, the stored mer is 2 = net_sales / total_spend, while
the claimed formula total_spend / net_sales * 100 gives 50; the claim is
therefore false at this input. -/
theorem c1_mer_counterexample :
    (calculate_daily_metrics_for_org c1State 1 ⟨2025, 3, 10⟩).mer = 2 ∧
      (calculate_daily_metrics_for_org c1State 1 ⟨2025, 3, 10⟩).total_spend /
          ((calculate_daily_metrics_for_org c1State 1 ⟨2025, 3, 10⟩).gross_revenue -
            (calculate_daily_metrics_for_org c1State 1 ⟨2025, 3, 10⟩).total_refunds) *
          100 = 50 ∧
      decide ((2 : ℚ) = 50) = false := by
  refine ⟨?_, ?_, rfl⟩ <;>
    · simp [calculate_daily_metrics_for_org, c1State, fixOrder, fixSpend,
        excluded_statuses, get_expenses_for_date, oneTimeMatch, dailyMatch,
        monthlyMatch]
      norm_num

/-- C1 (amended): for every aggregator run, the stored roas equals
net_sales / total_spend when total_spend is positive and 0 otherwise, and
the stored mer is assigned the very same value as roas - net_sales /
total_spend guarded on total_spend - not total_spend / net_sales * 100. -/
theorem c1_roas_mer_formulas (st : OrgState) (org : Nat) (d : CalDate) :
    (calculate_daily_metrics_for_org st org d).mer =
        (calculate_daily_metrics_for_org st org d).roas ∧
      (calculate_daily_metrics_for_org st org d).roas =
        (if 0 < (calculate_daily_metrics_for_org st org d).total_spend then
          ((calculate_daily_metrics_for_org st org d).gross_revenue -
              (calculate_daily_metrics_for_org st org d).total_refunds) /
            (calculate_daily_metrics_for_org st org d).total_spend
        else 0) :=
  ⟨rfl, rfl⟩

/-! ## C2: refund on a later day -/

/-- C2: with exactly one order of 100 placed on a valid day d (carrying any
status outside the excluded set) and one refund row of 100 dated three
days later, the aggregator reports gross_revenue 100 and total_refunds 0
for d, and gross_revenue 0, total_refunds 100, net sales -100 for d+3. -/
theorem c2_refund_on_later_day (d : CalDate) (s : String) (hv : d.valid)
    (hs : s ∉ excluded_statuses) :
    (calculate_daily_metrics_for_org (c2State d s) 1 d).gross_revenue = 100 ∧
      (calculate_daily_metrics_for_org (c2State d s) 1 d).total_refunds = 0 ∧
      (calculate_daily_metrics_for_org (c2State d s) 1 (addDays 3 d)).gross_revenue = 0 ∧
      (calculate_daily_metrics_for_org (c2State d s) 1 (addDays 3 d)).total_refunds = 100 ∧
      (calculate_daily_metrics_for_org (c2State d s) 1 (addDays 3 d)).revenue = -100 := by
  have hne : addDays 3 d ≠ d := addDays_ne hv 3 (by norm_num)
  have h1 : decide (addDays 3 d = d) = false := decide_eq_false hne
  have h2 : decide (d = addDays 3 d) = false := decide_eq_false (Ne.symm hne)
  have h3 : decide (s ∈ excluded_statuses) = false := decide_eq_false hs
  refine ⟨?_, ?_, ?_, ?_, ?_⟩ <;>
    simp [calculate_daily_metrics_for_org, c2State, c2Order, c2Refund,
      h1, h2, h3]

/-- Witness for c2_refund_on_later_day at d = 2025-03-10, s = "paid". -/
theorem c2_refund_on_later_day_witness :
    ((⟨2025, 3, 10⟩ : CalDate).valid ∧
        decide ("paid" ∈ excluded_statuses) = false) ∧
      ((calculate_daily_metrics_for_org (c2State ⟨2025, 3, 10⟩ "paid") 1
            ⟨2025, 3, 10⟩).gross_revenue = 100 ∧
        (calculate_daily_metrics_for_org (c2State ⟨2025, 3, 10⟩ "paid") 1
            ⟨2025, 3, 10⟩).total_refunds = 0 ∧
        (calculate_daily_metrics_for_org (c2State ⟨2025, 3, 10⟩ "paid") 1
            (addDays 3 ⟨2025, 3, 10⟩)).gross_revenue = 0 ∧
        (calculate_daily_metrics_for_org (c2State ⟨2025, 3, 10⟩ "paid") 1
            (addDays 3 ⟨2025, 3, 10⟩)).total_refunds = 100 ∧
        (calculate_daily_metrics_for_org (c2State ⟨2025, 3, 10⟩ "paid") 1
            (addDays 3 ⟨2025, 3, 10⟩)).revenue = -100) :=
  ⟨⟨by decide, rfl⟩,
    c2_refund_on_later_day ⟨2025, 3, 10⟩ "paid" (by decide) (by decide)⟩

/-! ## C6: zero-division guards -/

/-- C6: in every aggregator run, a zero total_spend yields roas = 0 and
mer = 0, zero orders_count yields average_order_value = 0, zero
new_customers yields ncpa = 0, and zero net sales yields net_margin = 0;
every derived ratio is guarded on its denominator. -/
theorem c6_zero_division_guards (st : OrgState) (org : Nat) (d : CalDate) :
    ((calculate_daily_metrics_for_org st org d).total_spend = 0 →
        (calculate_daily_metrics_for_org st org d).roas = 0 ∧
          (calculate_daily_metrics_for_org st org d).mer = 0) ∧
      ((calculate_daily_metrics_for_org st org d).orders_count = 0 →
        (calculate_daily_metrics_for_org st org d).average_order_value = 0) ∧
      ((calculate_daily_metrics_for_org st org d).new_customers_count = 0 →
        (calculate_daily_metrics_for_org st org d).ncpa = 0) ∧
      ((calculate_daily_metrics_for_org st org d).revenue = 0 →
        (calculate_daily_metrics_for_org st org d).net_margin = 0) := by
  refine ⟨?_, ?_, ?_, ?_⟩ <;>
    · simp only [calculate_daily_metrics_for_org]
      intro h
      simp only [h]
      norm_num

/-- Witness for c6_zero_division_guards on the empty state, where all four
denominators are zero. -/
theorem c6_zero_division_guards_witness :
    ((calculate_daily_metrics_for_org emptyOrgState 1 ⟨2025, 1, 1⟩).total_spend = 0 ∧
        (calculate_daily_metrics_for_org emptyOrgState 1 ⟨2025, 1, 1⟩).roas = 0 ∧
        (calculate_daily_metrics_for_org emptyOrgState 1 ⟨2025, 1, 1⟩).mer = 0) ∧
      ((calculate_daily_metrics_for_org emptyOrgState 1 ⟨2025, 1, 1⟩).orders_count = 0 ∧
        (calculate_daily_metrics_for_org emptyOrgState 1 ⟨2025, 1, 1⟩).average_order_value = 0) ∧
      ((calculate_daily_metrics_for_org emptyOrgState 1 ⟨2025, 1, 1⟩).new_customers_count = 0 ∧
        (calculate_daily_metrics_for_org emptyOrgState 1 ⟨2025, 1, 1⟩).ncpa = 0) ∧
      ((calculate_daily_metrics_for_org emptyOrgState 1 ⟨2025, 1, 1⟩).revenue = 0 ∧
        (calculate_daily_metrics_for_org emptyOrgState 1 ⟨2025, 1, 1⟩).net_margin = 0) := by
  have hspend : (calculate_daily_metrics_for_org emptyOrgState 1 ⟨2025, 1, 1⟩).total_spend = 0 := by
    simp [calculate_daily_metrics_for_org, emptyOrgState]
  have hcount : (calculate_daily_metrics_for_org emptyOrgState 1 ⟨2025, 1, 1⟩).orders_count = 0 := by
    simp [calculate_daily_metrics_for_org, emptyOrgState]
  have hnew : (calculate_daily_metrics_for_org emptyOrgState 1 ⟨2025, 1, 1⟩).new_customers_count = 0 := by
    simp [calculate_daily_metrics_for_org, emptyOrgState]
  have hrev : (calculate_daily_metrics_for_org emptyOrgState 1 ⟨2025, 1, 1⟩).revenue = 0 := by
    simp [calculate_daily_metrics_for_org, emptyOrgState, get_expenses_for_date,
      oneTimeMatch, dailyMatch, monthlyMatch]
  exact ⟨⟨hspend, (c6_zero_division_guards emptyOrgState 1 ⟨2025, 1, 1⟩).1 hspend⟩,
    ⟨hcount, (c6_zero_division_guards emptyOrgState 1 ⟨2025, 1, 1⟩).2.1 hcount⟩,
    ⟨hnew, (c6_zero_division_guards emptyOrgState 1 ⟨2025, 1, 1⟩).2.2.1 hnew⟩,
    ⟨hrev, (c6_zero_division_guards emptyOrgState 1 ⟨2025, 1, 1⟩).2.2.2 hrev⟩⟩

/-! ## C7: expense selection for a target date -/

theorem sumAmounts_nil (p : Expense → Bool) : sumAmounts [] p = 0 := rfl

theorem sumAmounts_cons (e : Expense) (l : List Expense) (p : Expense → Bool) :
    sumAmounts (e :: l) p = (if p e then e.amount else 0) + sumAmounts l p := by
  unfold sumAmounts
  cases hp : p e <;> simp [List.filter_cons, hp]

/-- The three queryset filters, pointwise: exactly one can accept an
expense, and their combined acceptance is the spec's description. -/
theorem match_sum_eq_spec (org : Nat) (target : CalDate) (e : Expense) :
    (if oneTimeMatch org target e then e.amount else 0) +
        (if dailyMatch org target e then e.amount else 0) +
        (if monthlyMatch org target e then e.amount else 0) =
      (if specExpenseApplies org target e then e.amount else 0) := by
  rcases he : e.recurrence <;>
    by_cases h1 : e.organization = org <;>
    by_cases h2 : e.expense_date = target <;>
    by_cases h3 : e.expense_date.day = target.day <;>
    cases hb : CalDate.ble e.expense_date target <;>
    cases hend : expenseEndOk e target <;>
    cases ha : e.is_active <;>
    simp [oneTimeMatch, dailyMatch, monthlyMatch, specExpenseApplies,
      he, h1, h2, h3, hb, hend, ha]

/-- C7: the expense total for a target date counts exactly the expenses
the spec describes (active one-time on the date; active daily-recurring in
their start and end window; active monthly-recurring matching the target's
day-of-month in their window); and an active monthly expense dated the
31st contributes nothing for a target date lying in a month with fewer
than 31 days. -/
theorem c7_expense_selection (expenses : List Expense) (org : Nat)
    (target : CalDate) :
    get_expenses_for_date expenses org target =
        ((expenses.filter (fun e => decide (specExpenseApplies org target e))).map
            Expense.amount).sum ∧
      (∀ e : Expense, e.recurrence = RecurrenceType.monthly →
        e.expense_date.day = 31 → target.valid →
        daysInMonth target.year target.month < 31 →
        get_expenses_for_date (e :: expenses) org target =
          get_expenses_for_date expenses org target) := by
  constructor
  · show sumAmounts expenses (oneTimeMatch org target) +
        sumAmounts expenses (dailyMatch org target) +
        sumAmounts expenses (monthlyMatch org target) =
      sumAmounts expenses (fun e => decide (specExpenseApplies org target e))
    induction expenses with
    | nil => simp [sumAmounts]
    | cons e l ih =>
      simp only [sumAmounts_cons]
      have hp := match_sum_eq_spec org target e
      have hrw : (if (fun e => decide (specExpenseApplies org target e)) e then
          e.amount else 0) = (if specExpenseApplies org target e then e.amount else 0) := by
        by_cases hs : specExpenseApplies org target e <;> simp [hs]
      rw [hrw]
      linarith [hp, ih]
  · intro e hrec hday hvalid hdim
    have htd : (31 : Nat) ≠ target.day := by
      obtain ⟨-, -, -, h4⟩ := hvalid; omega
    have h1 : oneTimeMatch org target e = false := by
      simp [oneTimeMatch, hrec]
    have h2 : dailyMatch org target e = false := by
      simp [dailyMatch, hrec]
    have h3 : monthlyMatch org target e = false := by
      simp [monthlyMatch, hday, htd]
    simp [get_expenses_for_date, List.filter_cons, h1, h2, h3]

/-- Witness for c7_expense_selection: a monthly expense dated 2025-01-31
adds nothing to the empty ledger's total for 2025-04-15 (April has 30
days). -/
theorem c7_expense_selection_witness :
    (c7Expense.recurrence = RecurrenceType.monthly ∧
        c7Expense.expense_date.day = 31 ∧
        (⟨2025, 4, 15⟩ : CalDate).valid ∧
        daysInMonth 2025 4 < 31) ∧
      get_expenses_for_date [c7Expense] 1 ⟨2025, 4, 15⟩ =
        get_expenses_for_date [] 1 ⟨2025, 4, 15⟩ :=
  ⟨⟨by decide, by decide, by decide, by decide⟩,
    (c7_expense_selection [] 1 ⟨2025, 4, 15⟩).2 c7Expense (by decide) (by decide)
      (by decide) (by decide)⟩

/-! ## C3: OAuth state consumption -/

/-- No row surviving the deletion filter can be found again by the same
predicate. -/
theorem find?_filter_not {α : Type} (l : List α) (p : α → Bool) :
    (l.filter (fun r => !(p r))).find? p = none := by
  induction l with
  | nil => rfl
  | cons a l ih =>
    cases hp : p a <;> simp [List.filter_cons, hp, List.find?_cons, ih]

/-- C3 counterexample: with one unexpired state row and a failing
downstream token exchange, exchange_code returns the exchange error and
leaves the state table unchanged - the row is not deleted - and a later
call with the same token still succeeds; this refutes deletion on
downstream failure. -/
theorem c3_row_kept_on_failure_counterexample :
    (exchange_code c3Db 50 "tok" false).1 =
        Except.error OAuthError.tokenExchangeFailed ∧
      (exchange_code c3Db 50 "tok" false).2 = c3Db ∧
      c3Db.length = 1 ∧
      (exchange_code c3Db 50 "tok" true).1 = Except.ok (1, 1) :=
  ⟨rfl, rfl, rfl, rfl⟩

/-- C3 (amended): when exchange_code finds an unexpired row for the state
token, the row is deleted exactly when the downstream token exchange
succeeds: on success the row is removed and any second call with the same
token fails with the invalid-state error; on downstream failure the table
is returned unchanged, so the row remains usable. -/
theorem c3_state_single_use (db : List OAuthStateRow) (now now2 : Nat)
    (tok : String) (row : OAuthStateRow)
    (hfind : db.find? (fun r => decide (r.state = tok)) = some row)
    (hexp : ¬ row.expires_at < now) :
    ((exchange_code db now tok true).1 =
        Except.ok (row.organization, row.user) ∧
      (exchange_code db now tok true).2 =
        db.filter (fun r => !(decide (r.state = tok))) ∧
      ∀ ok2 : Bool,
        (exchange_code (exchange_code db now tok true).2 now2 tok ok2).1 =
          Except.error OAuthError.invalidState) ∧
    ((exchange_code db now tok false).1 =
        Except.error OAuthError.tokenExchangeFailed ∧
      (exchange_code db now tok false).2 = db) := by
  have hsucc :
      exchange_code db now tok true =
        (Except.ok (row.organization, row.user),
          db.filter (fun r => !(decide (r.state = tok)))) := by
    unfold exchange_code
    rw [hfind]
    simp [hexp]
  have hfail :
      exchange_code db now tok false =
        (Except.error OAuthError.tokenExchangeFailed, db) := by
    unfold exchange_code
    rw [hfind]
    simp [hexp]
  refine ⟨⟨by rw [hsucc], by rw [hsucc], ?_⟩, by rw [hfail], by rw [hfail]⟩
  intro ok2
  rw [hsucc]
  unfold exchange_code
  rw [find?_filter_not]

/-- Witness for c3_state_single_use on the one-row table. -/
theorem c3_state_single_use_witness :
    (c3Db.find? (fun r => decide (r.state = "tok")) = some c3Row ∧
        decide (c3Row.expires_at < 50) = false) ∧
      (exchange_code c3Db 50 "tok" true).2 =
        c3Db.filter (fun r => !(decide (r.state = "tok"))) ∧
      (exchange_code (exchange_code c3Db 50 "tok" true).2 60 "tok" true).1 =
        Except.error OAuthError.invalidState ∧
      (exchange_code c3Db 50 "tok" false).2 = c3Db :=
  ⟨⟨rfl, rfl⟩,
    (c3_state_single_use c3Db 50 60 "tok" c3Row rfl (by decide)).1.2.1,
    (c3_state_single_use c3Db 50 60 "tok" c3Row rfl (by decide)).1.2.2 true,
    (c3_state_single_use c3Db 50 60 "tok" c3Row rfl (by decide)).2.2⟩

/-! ## C4: scheduled aggregator dates after a sync trigger -/

/-- C4 counterexample: with one integration, days = 1 and today = 100, the
trigger schedules only the single date 100; the date today - days = 99 is
not scheduled, and the scheduled count is 1, not days + 1 = 2. -/
theorem c4_schedule_range_counterexample :
    syncTriggerPost [⟨1, true⟩] 1 100 = some (1, [(100 : ℤ)]) ∧
      decide (((100 : ℤ) - 1) ∈ scheduledDates 1 100) = false ∧
      decide ((scheduledDates 1 100).length = 1 + 1) = false :=
  ⟨rfl, rfl, rfl⟩

/-- C4 (amended): for days ≥ 1 and a nonempty set of connected
integrations, the trigger - regardless of how many integrations succeeded -
schedules aggregator runs for exactly the dates in the inclusive range
[today - (days - 1), today]: days distinct dates, including today and
excluding today - days. -/
theorem c4_schedule_range (ints : List IntegrationAttempt) (days : Nat)
    (today : ℤ) (hne : ints ≠ []) (hd : 1 ≤ days) :
    syncTriggerPost ints days today =
        some (ints.countP (fun i => i.succeeds), scheduledDates days today) ∧
      (∀ x : ℤ, x ∈ scheduledDates days today ↔
        today - ((days : ℤ) - 1) ≤ x ∧ x ≤ today) ∧
      (scheduledDates days today).length = days ∧
      (scheduledDates days today).Nodup := by
  have hd2 : (1 : ℤ) ≤ (days : ℤ) := by exact_mod_cast hd
  refine ⟨?_, ?_, ?_, ?_⟩
  · unfold syncTriggerPost
    rw [if_neg]
    simp [List.isEmpty_iff, hne]
  · intro x
    unfold scheduledDates
    simp only [List.mem_map, List.mem_range]
    constructor
    · rintro ⟨i, hi, rfl⟩
      have hi2 : (i : ℤ) < (days : ℤ) := by exact_mod_cast hi
      constructor <;> omega
    · rintro ⟨hlo, hhi⟩
      refine ⟨(today - x).toNat, ?_, ?_⟩
      · omega
      · omega
  · unfold scheduledDates
    rw [List.length_map, List.length_range]
  · unfold scheduledDates
    refine List.Nodup.map ?_ (List.nodup_range days)
    intro a b hab
    dsimp only at hab
    omega

/-- Witness for c4_schedule_range with one integration, days = 2,
today = 100. -/
theorem c4_schedule_range_witness :
    (decide (([⟨1, true⟩] : List IntegrationAttempt) = []) = false ∧
        1 ≤ 2) ∧
      syncTriggerPost [⟨1, true⟩] 2 100 = some (1, scheduledDates 2 100) ∧
      (scheduledDates 2 100).length = 2 ∧
      (scheduledDates 2 100).Nodup :=
  ⟨⟨rfl, by decide⟩,
    (c4_schedule_range [⟨1, true⟩] 2 100 (by decide) (by decide)).1,
    (c4_schedule_range [⟨1, true⟩] 2 100 (by decide) (by decide)).2.2.1,
    (c4_schedule_range [⟨1, true⟩] 2 100 (by decide) (by decide)).2.2.2⟩

/-! ## C8: sync status reporting -/

/-- Folding the maximum search from an initial candidate yields a row from
the candidate-or-list that bounds every started_at seen. -/
theorem latestStep_foldl_spec (l : List SyncLogRow) (m : SyncLogRow) :
    ∃ m2, l.foldl latestStep (some m) = some m2 ∧ (m2 = m ∨ m2 ∈ l) ∧
      m.started_at ≤ m2.started_at ∧
      ∀ x ∈ l, x.started_at ≤ m2.started_at := by
  induction l generalizing m with
  | nil => exact ⟨m, rfl, Or.inl rfl, le_refl _, by simp⟩
  | cons a l ih =>
    have hstep : (a :: l).foldl latestStep (some m) =
        l.foldl latestStep
          (if m.started_at < a.started_at then some a else some m) := rfl
    rw [hstep]
    by_cases h : m.started_at < a.started_at
    · rw [if_pos h]
      obtain ⟨m2, h1, h2, h3, h4⟩ := ih a
      refine ⟨m2, h1, ?_, le_trans (le_of_lt h) h3, ?_⟩
      · rcases h2 with h2 | h2
        · exact Or.inr (h2 ▸ List.mem_cons_self a l)
        · exact Or.inr (List.mem_cons_of_mem a h2)
      · intro x hx
        rcases List.mem_cons.mp hx with hx | hx
        · exact hx ▸ h3
        · exact h4 x hx
    · rw [if_neg h]
      obtain ⟨m2, h1, h2, h3, h4⟩ := ih m
      refine ⟨m2, h1, ?_, h3, ?_⟩
      · rcases h2 with h2 | h2
        · exact Or.inl h2
        · exact Or.inr (List.mem_cons_of_mem a h2)
      · intro x hx
        rcases List.mem_cons.mp hx with hx | hx
        · subst hx; omega
        · exact h4 x hx

/-- latestByStartedAt of a nonempty list returns a member whose started_at
bounds the whole list. -/
theorem latestByStartedAt_spec (rows : List SyncLogRow) (h : rows ≠ []) :
    ∃ m, latestByStartedAt rows = some m ∧ m ∈ rows ∧
      ∀ x ∈ rows, x.started_at ≤ m.started_at := by
  cases rows with
  | nil => exact absurd rfl h
  | cons a l =>
    obtain ⟨m2, h1, h2, h3, h4⟩ := latestStep_foldl_spec l a
    refine ⟨m2, h1, ?_, ?_⟩
    · rcases h2 with h2 | h2
      · exact h2 ▸ List.mem_cons_self a l
      · exact List.mem_cons_of_mem a h2
    · intro x hx
      rcases List.mem_cons.mp hx with hx | hx
      · exact hx ▸ h3
      · exact h4 x hx

/-- latestByStartedAt finds nothing only on the empty list. -/
theorem latestByStartedAt_eq_none (rows : List SyncLogRow)
    (h : latestByStartedAt rows = none) : rows = [] := by
  by_contra hne
  obtain ⟨m, h1, -, -⟩ := latestByStartedAt_spec rows hne
  rw [h] at h1
  exact Option.noConfusion h1

/-- C8 counterexample: for an organization with an older completed run
(completed at time 2) and a more recently started run still in progress,
getSyncStatus reports ("running", none): last_sync_at is null although a
run has completed, refuting the most-recently-completed reading. -/
theorem c8_last_sync_counterexample :
    getSyncStatus c8Rows 1 = ("running", none) ∧
      c8Rows.countP (fun r => r.completed_at.isSome) = 1 :=
  ⟨rfl, rfl⟩

/-- C8 (amended): the reported status is "running" exactly when some row
of the organization is in progress; and last_sync_at is the completed_at
of the organization's most recently started run - which is null whenever
that run has not completed, even if an earlier run did (started_at values
assumed pairwise distinct, as ties are resolved arbitrarily by the
store). -/
theorem c8_sync_status (rows : List SyncLogRow) (org : Nat)
    (hdist : (rows.filter (fun r => decide (r.organization = org))).Pairwise
      (fun a b => a.started_at ≠ b.started_at)) :
    ((getSyncStatus rows org).1 = "running" ↔
        ∃ r ∈ rows, r.organization = org ∧
          r.status = SyncLogStatus.in_progress) ∧
      (∀ r ∈ rows, r.organization = org →
        (∀ x ∈ rows, x.organization = org →
          x.started_at ≤ r.started_at) →
        (getSyncStatus rows org).2 = r.completed_at) := by
  constructor
  · unfold getSyncStatus
    rcases hm : latestByStartedAt
        (rows.filter (fun r => decide (r.organization = org))) with _ | m
    · have hempty := latestByStartedAt_eq_none _ hm
      simp only [hm]
      constructor
      · intro h
        exact absurd h (by decide)
      · rintro ⟨r, hr, horg, -⟩
        have : r ∈ rows.filter (fun r => decide (r.organization = org)) := by
          rw [List.mem_filter]
          exact ⟨hr, by simp [horg]⟩
        rw [hempty] at this
        exact absurd this (List.not_mem_nil r)
    · simp only [hm]
      by_cases hany : ((rows.filter
          (fun r => decide (r.organization = org))).any
            (fun r => decide (r.status = SyncLogStatus.in_progress))) = true
      · rw [if_pos hany]
        constructor
        · intro _
          obtain ⟨r, hr, hst⟩ := List.any_eq_true.mp hany
          have hrm := List.mem_filter.mp hr
          exact ⟨r, hrm.1, by simpa using hrm.2, by simpa using hst⟩
        · intro _
          rfl
      · rw [if_neg hany]
        constructor
        · intro h
          exact absurd h (by decide)
        · rintro ⟨r, hr, horg, hst⟩
          exact absurd (List.any_eq_true.mpr
            ⟨r, List.mem_filter.mpr ⟨hr, by simp [horg]⟩, by simp [hst]⟩) hany
  · intro r hr horg hmax
    have hrf : r ∈ rows.filter (fun x => decide (x.organization = org)) :=
      List.mem_filter.mpr ⟨hr, by simp [horg]⟩
    have hne : rows.filter (fun x => decide (x.organization = org)) ≠ [] := by
      intro h
      rw [h] at hrf
      exact absurd hrf (List.not_mem_nil r)
    obtain ⟨m, h1, h2, h3⟩ := latestByStartedAt_spec _ hne
    have hmle : m.started_at ≤ r.started_at := by
      have h2m := List.mem_filter.mp h2
      exact hmax m h2m.1 (by simpa using h2m.2)
    have hrle : r.started_at ≤ m.started_at := h3 r hrf
    have hmr : m = r := by
      by_contra hne2
      exact List.Pairwise.forall (fun a b h => Ne.symm h) hdist h2 hrf hne2
        (Nat.le_antisymm hmle hrle)
    unfold getSyncStatus
    simp only [h1, hmr]

/-- Witness for c8_sync_status: the in-progress row of c8Rows started most
recently, so last_sync_at is its null completed_at. -/
theorem c8_sync_status_witness :
    ((c8Rows.filter (fun r => decide (r.organization = 1))).Pairwise
        (fun a b => a.started_at ≠ b.started_at) ∧
      (⟨1, SyncLogStatus.in_progress, 3, none⟩ : SyncLogRow) ∈ c8Rows) ∧
      (getSyncStatus c8Rows 1).2 = none :=
  ⟨⟨by decide, by decide⟩,
    (c8_sync_status c8Rows 1 (by decide)).2
      ⟨1, SyncLogStatus.in_progress, 3, none⟩ (by decide) (by decide)
      (by decide)⟩

/-! ## C9: the Shopify new-customer flag -/

/-- C9 counterexample: a payload that includes a customer object that is
empty yields a null new-customer flag, not false; the claim that a missing
count field yields false is refuted at this input. -/
theorem c9_empty_customer_counterexample :
    shopify_is_new_customer (some []) = none ∧
      decide (shopify_is_new_customer (some []) = some false) = false :=
  ⟨rfl, rfl⟩

/-- C9 (amended): for a payload with a non-empty customer object the flag
is true exactly when the reported orders_count equals the number 1, and
false exactly otherwise (other counts, the count 0, or a missing count
field); an empty - or absent - customer object instead yields a null
flag. -/
theorem c9_new_customer_flag (d : List (String × JVal)) (hne : d ≠ []) :
    (shopify_is_new_customer (some d) = some true ↔
        dictGet d "orders_count" (JVal.num 0) = JVal.num 1) ∧
      (shopify_is_new_customer (some d) = some false ↔
        ¬ dictGet d "orders_count" (JVal.num 0) = JVal.num 1) ∧
      shopify_is_new_customer none = none := by
  have hempty : d.isEmpty = false := by
    cases d with
    | nil => exact absurd rfl hne
    | cons a l => rfl
  refine ⟨?_, ?_, rfl⟩ <;>
    simp [shopify_is_new_customer, hempty]

/-- Witness for c9_new_customer_flag: a customer object reporting
orders_count 1 is flagged as a new customer. -/
theorem c9_new_customer_flag_witness :
    decide (([("orders_count", JVal.num 1)] : List (String × JVal)) = []) =
        false ∧
      (shopify_is_new_customer (some [("orders_count", JVal.num 1)]) = some true ↔
        dictGet [("orders_count", JVal.num 1)] "orders_count" (JVal.num 0) =
          JVal.num 1) :=
  ⟨rfl, (c9_new_customer_flag [("orders_count", JVal.num 1)] (by decide)).1⟩

/-! ## C10: refunds are insert-only -/

/-- Every refund built by extract_refunds_from_order has a strictly
positive amount. -/
theorem extract_refunds_pos (o : Order) :
    ∀ r ∈ extract_refunds_from_order o, 0 < r.amount := by
  intro r hr
  unfold extract_refunds_from_order at hr
  rw [List.mem_filterMap] at hr
  obtain ⟨rd, -, heq⟩ := hr
  rcases hrd : rd.id with _ | i
  · rw [hrd] at heq
    exact Option.noConfusion heq
  · rw [hrd] at heq
    dsimp only at heq
    by_cases h0 : i = 0
    · rw [if_pos h0] at heq
      exact Option.noConfusion heq
    · rw [if_neg h0] at heq
      by_cases hpos : 0 < refundTotal rd
      · rw [if_pos hpos] at heq
        have h := Option.some.inj heq
        rw [← h]
        exact hpos
      · rw [if_neg hpos] at heq
        exact Option.noConfusion heq

/-- hasRefundKey distributes over append. -/
theorem hasRefundKey_append (db l : List Refund) (org : Nat) (eid : String) :
    hasRefundKey (db ++ l) org eid =
      (hasRefundKey db org eid || hasRefundKey l org eid) := by
  simp [hasRefundKey, List.any_append]

/-- The get_or_create loop of sync_refunds_from_order only ever appends
rows whose key was absent, and appends nothing else. -/
theorem refund_fold_frame (rs : List Refund) (db : List Refund) (n : Nat) :
    ∃ new,
      (rs.foldl refundStep (db, n)).1 = db ++ new ∧
        ∀ r ∈ new, r ∈ rs ∧
          hasRefundKey db r.organization r.external_id = false := by
  induction rs generalizing db n with
  | nil => exact ⟨[], by simp, by simp⟩
  | cons r rs ih =>
    by_cases hk : hasRefundKey db r.organization r.external_id = true
    · have hstep : refundStep (db, n) r = (db, n) := by
        simp [refundStep, refund_get_or_create, hk]
      rw [List.foldl_cons, hstep]
      obtain ⟨new, h1, h2⟩ := ih db n
      exact ⟨new, h1, fun q hq =>
        ⟨List.mem_cons_of_mem r (h2 q hq).1, (h2 q hq).2⟩⟩
    · have hkf : hasRefundKey db r.organization r.external_id = false := by
        revert hk
        cases hasRefundKey db r.organization r.external_id <;> simp
      have hstep : refundStep (db, n) r = (db ++ [r], n + 1) := by
        simp [refundStep, refund_get_or_create, hkf]
      rw [List.foldl_cons, hstep]
      obtain ⟨new, h1, h2⟩ := ih (db ++ [r]) (n + 1)
      refine ⟨r :: new, by rw [h1]; simp, ?_⟩
      intro q hq
      rcases List.mem_cons.mp hq with hq | hq
      · rw [hq]
        exact ⟨List.mem_cons_self r rs, hkf⟩
      · refine ⟨List.mem_cons_of_mem r (h2 q hq).1, ?_⟩
        have := (h2 q hq).2
        rw [hasRefundKey_append] at this
        exact (Bool.or_eq_false_iff.mp this).1

/-- C10: both refund sync entry points are insert-only at the Refund
table: the resulting table is the input table, unchanged, followed by new
rows only - each new row has a strictly positive amount and an
(organization, external_id) key that did not yet exist - so existing rows
keep every field even when the parent order's stored payload changed, and
a refund extracted with a non-positive total is never persisted. -/
theorem c10_refunds_insert_only (db : List Refund) (o : Order)
    (orders : List Order) (org : Nat) :
    (∃ new, (sync_refunds_from_order db o).1 = db ++ new ∧
        ∀ r ∈ new, 0 < r.amount ∧
          hasRefundKey db r.organization r.external_id = false) ∧
      (∃ new, (sync_refunds_for_organization db orders org).1 = db ++ new ∧
        ∀ r ∈ new, 0 < r.amount ∧
          hasRefundKey db r.organization r.external_id = false) := by
  have hone : ∀ (db2 : List Refund) (o2 : Order),
      ∃ new, (sync_refunds_from_order db2 o2).1 = db2 ++ new ∧
        ∀ r ∈ new, 0 < r.amount ∧
          hasRefundKey db2 r.organization r.external_id = false := by
    intro db2 o2
    obtain ⟨new, h1, h2⟩ :=
      refund_fold_frame (extract_refunds_from_order o2) db2 0
    exact ⟨new, h1, fun q hq =>
      ⟨extract_refunds_pos o2 q (h2 q hq).1, (h2 q hq).2⟩⟩
  refine ⟨hone db o, ?_⟩
  have hmany : ∀ (os : List Order) (db2 : List Refund) (n : Nat),
      ∃ new,
        (os.foldl orgRefundStep (db2, n)).1 = db2 ++ new ∧
          ∀ r ∈ new, 0 < r.amount ∧
            hasRefundKey db2 r.organization r.external_id = false := by
    intro os
    induction os with
    | nil => exact fun db2 n => ⟨[], by simp, by simp⟩
    | cons o2 os ih =>
      intro db2 n
      obtain ⟨new1, h1, h2⟩ := hone db2 o2
      rw [List.foldl_cons]
      have hstep : orgRefundStep (db2, n) o2 =
          (db2 ++ new1, n + (sync_refunds_from_order db2 o2).2) := by
        unfold orgRefundStep
        dsimp only
        rw [h1]
      rw [hstep]
      obtain ⟨new2, h3, h4⟩ :=
        ih (db2 ++ new1) (n + (sync_refunds_from_order db2 o2).2)
      refine ⟨new1 ++ new2, by rw [h3]; simp, ?_⟩
      intro q hq
      rcases List.mem_append.mp hq with hq | hq
      · exact ⟨(h2 q hq).1, (h2 q hq).2⟩
      · refine ⟨(h4 q hq).1, ?_⟩
        have := (h4 q hq).2
        rw [hasRefundKey_append] at this
        exact (Bool.or_eq_false_iff.mp this).1
  exact hmany (orders.filter (fun o2 => decide (o2.organization = org))) db 0

/-! ## C5: idempotence of the ingestion upserts -/

theorem containsKey_cons {κ φ : Type} [DecidableEq κ] (q : κ × φ)
    (s : List (κ × φ)) (k : κ) :
    containsKey (q :: s) k = (decide (q.1 = k) || containsKey s k) := rfl

theorem containsKey_append {κ φ : Type} [DecidableEq κ] (s t : List (κ × φ))
    (k : κ) :
    containsKey (s ++ t) k = (containsKey s k || containsKey t k) := by
  simp [containsKey, List.any_append]

theorem containsKey_of_mem {κ φ : Type} [DecidableEq κ] {s : List (κ × φ)}
    {p : κ × φ} (hp : p ∈ s) : containsKey s p.1 = true :=
  List.any_eq_true.mpr ⟨p, hp, by simp⟩

theorem containsKey_map_replace {κ φ : Type} [DecidableEq κ]
    (s : List (κ × φ)) (r : κ × φ) (k : κ) :
    containsKey (s.map (fun p => if p.1 = r.1 then r else p)) k =
      containsKey s k := by
  induction s with
  | nil => rfl
  | cons q s ih =>
    rw [List.map_cons, containsKey_cons, containsKey_cons, ih]
    by_cases hq : q.1 = r.1
    · rw [if_pos hq, hq]
    · rw [if_neg hq]

theorem containsKey_upsert {κ φ : Type} [DecidableEq κ] (s : List (κ × φ))
    (r : κ × φ) (k : κ) :
    containsKey (upsert s r) k = (containsKey s k || decide (r.1 = k)) := by
  unfold upsert
  by_cases h : containsKey s r.1 = true
  · rw [if_pos h, containsKey_map_replace]
    by_cases hk : r.1 = k
    · rw [← hk]
      simp [h]
    · simp [hk]
  · rw [if_neg h, containsKey_append]
    simp [containsKey]

theorem mem_upsert_eq {κ φ : Type} [DecidableEq κ] {s : List (κ × φ)}
    {r p : κ × φ} (hp : p ∈ upsert s r) (hk : p.1 = r.1) : p = r := by
  unfold upsert at hp
  by_cases h : containsKey s r.1 = true
  · rw [if_pos h] at hp
    obtain ⟨q, hq, heq⟩ := List.mem_map.mp hp
    by_cases hqr : q.1 = r.1
    · rw [if_pos hqr] at heq
      exact heq.symm
    · rw [if_neg hqr] at heq
      rw [← heq] at hk
      exact absurd hk hqr
  · rw [if_neg h] at hp
    rcases List.mem_append.mp hp with hp | hp
    · have hc := containsKey_of_mem hp
      rw [hk] at hc
      exact absurd hc h
    · exact List.mem_singleton.mp hp

theorem mem_upsert_ne {κ φ : Type} [DecidableEq κ] {s : List (κ × φ)}
    {r p : κ × φ} (hp : p ∈ upsert s r) (hk : ¬ p.1 = r.1) : p ∈ s := by
  unfold upsert at hp
  by_cases h : containsKey s r.1 = true
  · rw [if_pos h] at hp
    obtain ⟨q, hq, heq⟩ := List.mem_map.mp hp
    by_cases hqr : q.1 = r.1
    · rw [if_pos hqr] at heq
      exfalso
      apply hk
      rw [← heq]
    · rw [if_neg hqr] at heq
      exact heq ▸ hq
  · rw [if_neg h] at hp
    rcases List.mem_append.mp hp with hp | hp
    · exact hp
    · exact absurd (congrArg Prod.fst (List.mem_singleton.mp hp)) hk

theorem upsertAll_concat {κ φ : Type} [DecidableEq κ] (s l : List (κ × φ))
    (r : κ × φ) : upsertAll s (l ++ [r]) = upsert (upsertAll s l) r := by
  simp [upsertAll, List.foldl_append]

theorem lastVal_concat {κ φ : Type} [DecidableEq κ] (l : List (κ × φ))
    (r : κ × φ) (k : κ) :
    lastVal (l ++ [r]) k = if r.1 = k then some r.2 else lastVal l k := by
  simp [lastVal, List.foldl_append]

theorem applyLast_fst {κ φ : Type} [DecidableEq κ] (l : List (κ × φ))
    (p : κ × φ) : (applyLast l p).1 = p.1 := by
  unfold applyLast
  cases lastVal l p.1 <;> rfl

theorem map_applyLast_nil {κ φ : Type} [DecidableEq κ] (s : List (κ × φ)) :
    s.map (applyLast []) = s := by
  induction s with
  | nil => rfl
  | cons q s ih =>
    rw [List.map_cons, ih]
    rfl

theorem containsKey_map_applyLast {κ φ : Type} [DecidableEq κ]
    (s l : List (κ × φ)) (k : κ) :
    containsKey (s.map (applyLast l)) k = containsKey s k := by
  induction s with
  | nil => rfl
  | cons q s ih =>
    rw [List.map_cons, containsKey_cons, containsKey_cons, ih, applyLast_fst]

theorem containsKey_upsertAll_of_mem {κ φ : Type} [DecidableEq κ]
    (s l : List (κ × φ)) :
    ∀ r ∈ l, containsKey (upsertAll s l) r.1 = true := by
  induction l using List.reverseRecOn with
  | nil =>
    intro r hr
    exact absurd hr (List.not_mem_nil r)
  | append_singleton l x ih =>
    intro r hr
    rw [upsertAll_concat, containsKey_upsert]
    rcases List.mem_append.mp hr with hr | hr
    · rw [ih r hr]
      rfl
    · rw [List.mem_singleton.mp hr]
      simp

theorem replace_applyLast {κ φ : Type} [DecidableEq κ] (l : List (κ × φ))
    (x p : κ × φ) :
    (if (applyLast l p).1 = x.1 then x else applyLast l p) =
      applyLast (l ++ [x]) p := by
  rw [applyLast_fst]
  by_cases hpx : p.1 = x.1
  · rw [if_pos hpx]
    unfold applyLast
    rw [lastVal_concat, if_pos hpx.symm]
    obtain ⟨x1, x2⟩ := x
    obtain ⟨p1, p2⟩ := p
    dsimp only at hpx ⊢
    rw [hpx]
  · rw [if_neg hpx]
    unfold applyLast
    rw [lastVal_concat, if_neg (fun h => hpx h.symm)]

theorem upsertAll_of_contains {κ φ : Type} [DecidableEq κ]
    (s l : List (κ × φ)) (h : ∀ r ∈ l, containsKey s r.1 = true) :
    upsertAll s l = s.map (applyLast l) := by
  induction l using List.reverseRecOn with
  | nil =>
    rw [map_applyLast_nil]
    rfl
  | append_singleton l x ih =>
    have hl : ∀ r ∈ l, containsKey s r.1 = true := fun r hr =>
      h r (List.mem_append.mpr (Or.inl hr))
    have hx : containsKey s x.1 = true :=
      h x (List.mem_append.mpr (Or.inr (List.mem_singleton.mpr rfl)))
    rw [upsertAll_concat, ih hl]
    unfold upsert
    have hc : containsKey (s.map (applyLast l)) x.1 = true := by
      rw [containsKey_map_applyLast]
      exact hx
    rw [if_pos hc, List.map_map]
    apply List.map_congr_left
    intro p _
    exact replace_applyLast l x p

theorem upsertAll_values {κ φ : Type} [DecidableEq κ] (s l : List (κ × φ)) :
    ∀ p ∈ upsertAll s l, ∀ v, lastVal l p.1 = some v → p.2 = v := by
  induction l using List.reverseRecOn with
  | nil =>
    intro p _ v hv
    exact Option.noConfusion hv
  | append_singleton l x ih =>
    intro p hp v hv
    rw [upsertAll_concat] at hp
    rw [lastVal_concat] at hv
    by_cases hx : x.1 = p.1
    · rw [if_pos hx] at hv
      have hpx : p = x := mem_upsert_eq hp hx.symm
      rw [hpx]
      exact Option.some.inj hv
    · rw [if_neg hx] at hv
      exact ih p (mem_upsert_ne hp (fun h2 => hx h2.symm)) v hv

theorem applyLast_eq_self {κ φ : Type} [DecidableEq κ] (s l : List (κ × φ)) :
    ∀ p ∈ upsertAll s l, applyLast l p = p := by
  intro p hp
  unfold applyLast
  rcases hv : lastVal l p.1 with _ | v
  · rfl
  · have h2 := upsertAll_values s l p hp v hv
    rw [← h2]

theorem upsertAll_idem {κ φ : Type} [DecidableEq κ] (s l : List (κ × φ)) :
    upsertAll (upsertAll s l) l = upsertAll s l := by
  rw [upsertAll_of_contains (upsertAll s l) l (containsKey_upsertAll_of_mem s l)]
  exact (List.map_congr_left (applyLast_eq_self s l)).trans
    (List.map_id (upsertAll s l))

theorem storeKeys_map_replace {κ φ : Type} [DecidableEq κ]
    (s : List (κ × φ)) (r : κ × φ) :
    storeKeys (s.map (fun p => if p.1 = r.1 then r else p)) = storeKeys s := by
  unfold storeKeys
  rw [List.map_map]
  apply List.map_congr_left
  intro p _
  simp only [Function.comp_apply]
  by_cases hq : p.1 = r.1
  · rw [if_pos hq, hq]
  · rw [if_neg hq]

theorem not_contains_not_mem_keys {κ φ : Type} [DecidableEq κ]
    {s : List (κ × φ)} {k : κ} (h : containsKey s k = false) :
    k ∉ storeKeys s := by
  intro hk
  unfold storeKeys at hk
  obtain ⟨p, hp, hpk⟩ := List.mem_map.mp hk
  have hc := containsKey_of_mem hp
  rw [hpk, h] at hc
  exact Bool.noConfusion hc

theorem storeKeys_nodup_upsert {κ φ : Type} [DecidableEq κ]
    (s : List (κ × φ)) (r : κ × φ) (h : (storeKeys s).Nodup) :
    (storeKeys (upsert s r)).Nodup := by
  unfold upsert
  by_cases hc : containsKey s r.1 = true
  · rw [if_pos hc, storeKeys_map_replace]
    exact h
  · have hcf : containsKey s r.1 = false := by
      revert hc
      cases containsKey s r.1 <;> simp
    rw [if_neg hc]
    unfold storeKeys
    rw [List.map_append, List.nodup_append]
    refine ⟨h, List.nodup_singleton _, ?_⟩
    intro a ha hb
    have hab : a = r.1 := by simpa using hb
    rw [hab] at ha
    exact not_contains_not_mem_keys hcf ha

theorem storeKeys_nodup_upsertAll {κ φ : Type} [DecidableEq κ]
    (s l : List (κ × φ)) (h : (storeKeys s).Nodup) :
    (storeKeys (upsertAll s l)).Nodup := by
  induction l generalizing s with
  | nil => exact h
  | cons r l ih => exact ih (upsert s r) (storeKeys_nodup_upsert s r h)

/-- C5: re-running an ingestion upsert loop over the same fetched records
leaves the store exactly as after the first run - same rows, same order,
same field values - and a store whose natural keys are unique keeps them
unique, so no duplicate rows are ever created; this holds for the Order
loop keyed by (organization, external_id, source) and for the ad spend
loop keyed by (organization, date, platform, account_id). -/
theorem c5_ingestion_upsert_idempotent :
    (∀ (s l : List (OrderKey × OrderDefaults)),
      sync_orders_upsert_all (sync_orders_upsert_all s l) l =
          sync_orders_upsert_all s l ∧
        ((storeKeys s).Nodup →
          (storeKeys (sync_orders_upsert_all s l)).Nodup)) ∧
      (∀ (s l : List (AdSpendKey × AdSpendDefaults)),
        sync_ad_spend_upsert_all (sync_ad_spend_upsert_all s l) l =
            sync_ad_spend_upsert_all s l ∧
          ((storeKeys s).Nodup →
            (storeKeys (sync_ad_spend_upsert_all s l)).Nodup)) :=
  ⟨fun s l => ⟨upsertAll_idem s l, fun h => storeKeys_nodup_upsertAll s l h⟩,
    fun s l => ⟨upsertAll_idem s l, fun h => storeKeys_nodup_upsertAll s l h⟩⟩

/-- Witness for c5_ingestion_upsert_idempotent on a one-row store and a
two-record batch. -/
theorem c5_ingestion_upsert_idempotent_witness :
    (storeKeys c5Store).Nodup ∧
      sync_orders_upsert_all (sync_orders_upsert_all c5Store c5Batch) c5Batch =
        sync_orders_upsert_all c5Store c5Batch ∧
      (storeKeys (sync_orders_upsert_all c5Store c5Batch)).Nodup :=
  ⟨by decide, (c5_ingestion_upsert_idempotent.1 c5Store c5Batch).1,
    (c5_ingestion_upsert_idempotent.1 c5Store c5Batch).2 (by decide)⟩

end Luca
